import Mathlib

set_option autoImplicit false

namespace Payday

/-- Embedding of `payday_core/src/payment/currency.rs`: the closed `Currency` enum. -/
inductive Currency where
  | Btc
  | Usd
  | Eur
  | Aud
  | Gbp
  | Cad
deriving DecidableEq, Repr

/-- Embedding of the `Display` impl for `Currency` (`currency.rs`). -/
def Currency.toDisplay : Currency → String
  | .Btc => "BTC"
  | .Usd => "USD"
  | .Eur => "EUR"
  | .Cad => "CAD"
  | .Gbp => "GBP"
  | .Aud => "AUD"

/-- Embedding of `payday_core/src/payment/amount.rs`: `Amount { currency, cent_amount: u64 }`.
The `u64` is modelled as `Nat`; the embedded code never performs arithmetic on
`cent_amount`, only comparisons, so no wrap-around can occur. -/
structure Amount where
  currency : Currency
  cent_amount : Nat
deriving DecidableEq, Repr

/-- Embedding of `Amount::new`. -/
def Amount.new (currency : Currency) (cent_amount : Nat) : Amount :=
  { currency := currency, cent_amount := cent_amount }

/-- Embedding of `Amount::zero`. -/
def Amount.zero (currency : Currency) : Amount :=
  { currency := currency, cent_amount := 0 }

/-- Embedding of `Amount::sats`. -/
def Amount.sats (sats : Nat) : Amount :=
  { currency := .Btc, cent_amount := sats }

namespace Payment

/-- Embedding of `payday_core/src/payment/error.rs`: the domain `Error` enum.
`InvalidCurrency` carries the offending currency string first and the required
currency string second, exactly as constructed at the call sites. -/
inductive Error where
  | InvalidAmount (a : Amount)
  | InvalidCurrency (offending required : String)
  | ServiceError (msg : String)
  | InvoiceAlreadyExists (id : String)
  | InvoiceDetailsCreation (msg : String)
  | InvalidPaymentType (msg : String)
deriving DecidableEq, Repr

end Payment

/-- Embedding of the `OnChainInvoice` aggregate state
(`payday_core/src/aggregate/on_chain_aggregate.rs`). -/
structure OnChainInvoice where
  invoice_id : String
  node_id : String
  address : String
  amount : Amount
  received_amount : Amount
  confirmations : Nat
  transaction_id : Option String
  underpayment : Bool
  overpayment : Bool
  paid : Bool
deriving DecidableEq, Repr

/-- Embedding of the `Default` impl for `OnChainInvoice`. -/
def OnChainInvoice.default : OnChainInvoice :=
  { invoice_id := ""
    node_id := ""
    address := ""
    amount := Amount.zero .Btc
    received_amount := Amount.zero .Btc
    confirmations := 0
    transaction_id := none
    underpayment := false
    overpayment := false
    paid := false }

/-- Embedding of `OnChainInvoiceCommand`. -/
inductive OnChainInvoiceCommand where
  | CreateInvoice (invoice_id node_id : String) (amount : Amount) (address : String)
  | SetPending (amount : Amount)
  | SetConfirmed (confirmations : Nat) (amount : Amount) (transaction_id : String)
deriving DecidableEq, Repr

/-- Embedding of `OnChainInvoiceEvent`. -/
inductive OnChainInvoiceEvent where
  | InvoiceCreated (invoice_id node_id : String) (amount : Amount) (address : String)
  | PaymentPending (received_amount : Amount) (underpayment overpayment : Bool)
  | PaymentConfirmed (received_amount : Amount) (underpayment overpayment : Bool)
      (confirmations : Nat) (transaction_id : String)
deriving DecidableEq, Repr

/-- Embedding of `OnChainInvoice::handle` (the `Aggregate` impl in
`on_chain_aggregate.rs`).  The currency guard runs before the
already-exists guard, as in the source. -/
def OnChainInvoice.handle (self : OnChainInvoice) :
    OnChainInvoiceCommand → Except Payment.Error (List OnChainInvoiceEvent)
  | .CreateInvoice invoice_id node_id amount address =>
      if amount.currency ≠ Currency.Btc then
        .error (.InvalidCurrency amount.currency.toDisplay Currency.Btc.toDisplay)
      else if self.invoice_id ≠ "" then
        .error (.InvoiceAlreadyExists invoice_id)
      else
        .ok [.InvoiceCreated invoice_id node_id amount address]
  | .SetPending amount =>
      if self.received_amount.cent_amount > 0 then
        .ok []
      else
        .ok [.PaymentPending amount
              (decide (amount.cent_amount < self.amount.cent_amount))
              (decide (amount.cent_amount > self.amount.cent_amount))]
  | .SetConfirmed confirmations amount transaction_id =>
      if self.confirmations > 0 then
        .ok []
      else
        .ok [.PaymentConfirmed amount
              (decide (amount.cent_amount < self.amount.cent_amount))
              (decide (amount.cent_amount > self.amount.cent_amount))
              confirmations transaction_id]

/-- Embedding of `OnChainInvoice::apply`. -/
def OnChainInvoice.apply (self : OnChainInvoice) : OnChainInvoiceEvent → OnChainInvoice
  | .InvoiceCreated invoice_id node_id amount address =>
      { self with invoice_id := invoice_id, node_id := node_id,
                  amount := amount, address := address }
  | .PaymentPending received_amount underpayment overpayment =>
      { self with received_amount := received_amount,
                  underpayment := underpayment, overpayment := overpayment }
  | .PaymentConfirmed received_amount underpayment overpayment confirmations transaction_id =>
      { self with received_amount := received_amount,
                  underpayment := underpayment, overpayment := overpayment,
                  confirmations := confirmations, paid := true,
                  transaction_id := some transaction_id }

/-- Folding a list of events through `apply`, as the cqrs framework does when
loading an aggregate from its event log. -/
def OnChainInvoice.applyAll (self : OnChainInvoice) (events : List OnChainInvoiceEvent) :
    OnChainInvoice :=
  events.foldl OnChainInvoice.apply self

/-- The events produced by a command: the `Ok` payload of `handle`, and the
empty list when `handle` returns a domain error (no events are written then). -/
def OnChainInvoice.handleEvents (self : OnChainInvoice) (cmd : OnChainInvoiceCommand) :
    List OnChainInvoiceEvent :=
  match self.handle cmd with
  | .ok events => events
  | .error _ => []

/-- Delivering the same command twice: the events of the first delivery are
applied to the state before the second delivery is handled. -/
def OnChainInvoice.redeliver (self : OnChainInvoice) (cmd : OnChainInvoiceCommand) :
    Except Payment.Error (List OnChainInvoiceEvent) :=
  match self.handle cmd with
  | .ok events => (self.applyAll events).handle cmd
  | .error e => .error e

/-- Claim C2: for every `OnChainInvoice` state, `handle (SetPending amount)`
returns exactly one `PaymentPending` event with `received_amount = amount`,
`underpayment = (amount < invoice amount)` and `overpayment = (amount >
invoice amount)` when the state's `received_amount` is `0`, and the empty
event list when `received_amount > 0`; `handle (SetConfirmed ...)` returns
exactly one `PaymentConfirmed` event carrying the command's fields when the
state's `confirmations` is `0`, and the empty list when already confirmed. -/
theorem onchain_set_pending_confirmed_spec (s : OnChainInvoice) (amt : Amount)
    (c : Nat) (txid : String) :
    (s.received_amount.cent_amount = 0 →
      s.handle (.SetPending amt) =
        .ok [.PaymentPending amt
              (decide (amt.cent_amount < s.amount.cent_amount))
              (decide (amt.cent_amount > s.amount.cent_amount))]) ∧
    (0 < s.received_amount.cent_amount →
      s.handle (.SetPending amt) = .ok []) ∧
    (s.confirmations = 0 →
      s.handle (.SetConfirmed c amt txid) =
        .ok [.PaymentConfirmed amt
              (decide (amt.cent_amount < s.amount.cent_amount))
              (decide (amt.cent_amount > s.amount.cent_amount)) c txid]) ∧
    (0 < s.confirmations →
      s.handle (.SetConfirmed c amt txid) = .ok []) := by
  refine ⟨fun h => ?_, fun h => ?_, fun h => ?_, fun h => ?_⟩ <;>
    simp [OnChainInvoice.handle, h, Nat.pos_iff_ne_zero]

/-- Witness for C2: the four cases of `onchain_set_pending_confirmed_spec`
evaluated at concrete states and amounts. -/
theorem onchain_set_pending_confirmed_spec_wit :
    (OnChainInvoice.default.handle (.SetPending (Amount.sats 5)) =
      .ok [.PaymentPending (Amount.sats 5) false true]) ∧
    (({ OnChainInvoice.default with received_amount := Amount.sats 7 }).handle
        (.SetPending (Amount.sats 5)) = .ok []) ∧
    (OnChainInvoice.default.handle (.SetConfirmed 1 (Amount.sats 5) "tx-1") =
      .ok [.PaymentConfirmed (Amount.sats 5) false true 1 "tx-1"]) ∧
    (({ OnChainInvoice.default with confirmations := 2 }).handle
        (.SetConfirmed 1 (Amount.sats 5) "tx-1") = .ok []) := by
  refine ⟨?_, ?_, ?_, ?_⟩
  · exact (onchain_set_pending_confirmed_spec OnChainInvoice.default (Amount.sats 5) 1 "tx-1").1 rfl
  · exact (onchain_set_pending_confirmed_spec
      { OnChainInvoice.default with received_amount := Amount.sats 7 }
      (Amount.sats 5) 1 "tx-1").2.1 (by decide)
  · exact (onchain_set_pending_confirmed_spec OnChainInvoice.default (Amount.sats 5) 1 "tx-1").2.2.1 rfl
  · exact (onchain_set_pending_confirmed_spec
      { OnChainInvoice.default with confirmations := 2 }
      (Amount.sats 5) 1 "tx-1").2.2.2 (by decide)

/-- Model of the external `lightning_invoice::Bolt11Invoice` type by the two
observations the embedded code makes of it: `payment_hash().to_string()` and
`to_string()`. -/
structure Bolt11Invoice where
  payment_hash : String
  encoded : String
deriving DecidableEq, Repr

/-- Embedding of the `LightningInvoice` aggregate state
(`payday_core/src/aggregate/lightning_aggregate.rs`). -/
structure LightningInvoice where
  invoice_id : String
  node_id : String
  r_hash : String
  invoice : String
  amount : Amount
  received_amount : Amount
  overpaid : Bool
  paid : Bool
deriving DecidableEq, Repr

/-- Embedding of the derived `Default` impl for `LightningInvoice`. -/
def LightningInvoice.default : LightningInvoice :=
  { invoice_id := ""
    node_id := ""
    r_hash := ""
    invoice := ""
    amount := Amount.new .Btc 0
    received_amount := Amount.new .Btc 0
    overpaid := false
    paid := false }

/-- Embedding of `LightningInvoiceCommand`. -/
inductive LightningInvoiceCommand where
  | CreateInvoice (invoice_id node_id : String) (amount : Amount) (invoice : Bolt11Invoice)
  | SettleInvoice (received_amount : Amount)
deriving DecidableEq, Repr

/-- Embedding of `LightningInvoiceEvent`. -/
inductive LightningInvoiceEvent where
  | InvoiceCreated (invoice_id node_id r_hash : String) (amount : Amount) (invoice : String)
  | InvoiceSettled (received_amount : Amount) (overpaid paid : Bool)
deriving DecidableEq, Repr

/-- Embedding of `LightningInvoice::handle` (the `Aggregate` impl in
`lightning_aggregate.rs`).  Here the already-exists guard runs before the
currency guard, as in the source. -/
def LightningInvoice.handle (self : LightningInvoice) :
    LightningInvoiceCommand → Except Payment.Error (List LightningInvoiceEvent)
  | .CreateInvoice invoice_id node_id amount invoice =>
      if self.invoice_id ≠ "" then
        .error (.InvoiceAlreadyExists invoice_id)
      else if amount.currency ≠ Currency.Btc then
        .error (.InvalidCurrency amount.currency.toDisplay Currency.Btc.toDisplay)
      else
        .ok [.InvoiceCreated invoice_id node_id invoice.payment_hash amount invoice.encoded]
  | .SettleInvoice received_amount =>
      if self.paid then
        .ok []
      else
        .ok [.InvoiceSettled received_amount
              (decide (received_amount.cent_amount > self.amount.cent_amount))
              (decide (received_amount.cent_amount ≥ self.amount.cent_amount))]

/-- Embedding of `LightningInvoice::apply`. -/
def LightningInvoice.apply (self : LightningInvoice) : LightningInvoiceEvent → LightningInvoice
  | .InvoiceCreated invoice_id node_id r_hash amount invoice =>
      { self with invoice_id := invoice_id, node_id := node_id, r_hash := r_hash,
                  amount := amount, invoice := invoice }
  | .InvoiceSettled received_amount overpaid paid =>
      { self with received_amount := received_amount, overpaid := overpaid, paid := paid }

/-- Folding a list of events through `LightningInvoice.apply`. -/
def LightningInvoice.applyAll (self : LightningInvoice)
    (events : List LightningInvoiceEvent) : LightningInvoice :=
  events.foldl LightningInvoice.apply self

/-- The events produced by a lightning command (empty on a domain error). -/
def LightningInvoice.handleEvents (self : LightningInvoice)
    (cmd : LightningInvoiceCommand) : List LightningInvoiceEvent :=
  match self.handle cmd with
  | .ok events => events
  | .error _ => []

/-- Delivering the same lightning command twice, the events of the first
delivery applied before the second. -/
def LightningInvoice.redeliver (self : LightningInvoice) (cmd : LightningInvoiceCommand) :
    Except Payment.Error (List LightningInvoiceEvent) :=
  match self.handle cmd with
  | .ok events => (self.applyAll events).handle cmd
  | .error e => .error e

/-- Claim C3: for every `LightningInvoice` state, `handle (SettleInvoice
received_amount)` returns exactly one `InvoiceSettled` event with
`overpaid = (received_amount > invoice amount)` and `paid = (received_amount
>= invoice amount)` when the state's `paid` flag is `false`, and the empty
event list when `paid` is already `true`. -/
theorem lightning_settle_spec (ls : LightningInvoice) (ra : Amount) :
    (ls.paid = false →
      ls.handle (.SettleInvoice ra) =
        .ok [.InvoiceSettled ra
              (decide (ra.cent_amount > ls.amount.cent_amount))
              (decide (ra.cent_amount ≥ ls.amount.cent_amount))]) ∧
    (ls.paid = true → ls.handle (.SettleInvoice ra) = .ok []) := by
  refine ⟨fun h => ?_, fun h => ?_⟩ <;> simp [LightningInvoice.handle, h]

/-- Witness for C3: both cases of `lightning_settle_spec` at concrete inputs. -/
theorem lightning_settle_spec_wit :
    (LightningInvoice.default.handle (.SettleInvoice (Amount.sats 5)) =
      .ok [.InvoiceSettled (Amount.sats 5) true true]) ∧
    (({ LightningInvoice.default with paid := true }).handle
        (.SettleInvoice (Amount.sats 5)) = .ok []) := by
  refine ⟨?_, ?_⟩
  · exact (lightning_settle_spec LightningInvoice.default (Amount.sats 5)).1 rfl
  · exact (lightning_settle_spec { LightningInvoice.default with paid := true }
      (Amount.sats 5)).2 rfl

/-- Counterexample to C4 as stated: an underpaying `SettleInvoice` leaves
`paid = false`, so an identical second delivery re-emits the very same
`InvoiceSettled` event instead of the empty list.  The pre-state is reachable:
it is the fold of the events produced by a successful `CreateInvoice` for
100000 sats on the fresh aggregate. -/
theorem redelivery_second_nonempty_cex :
    (LightningInvoice.default.applyAll
        (LightningInvoice.default.handleEvents
          (.CreateInvoice "inv-2" "node-A" (Amount.sats 100000)
            { payment_hash := "aa11", encoded := "lntbs1example" }))).redeliver
        (.SettleInvoice (Amount.sats 50000)) =
      .ok [.InvoiceSettled (Amount.sats 50000) false false] ∧
    ([(LightningInvoiceEvent.InvoiceSettled (Amount.sats 50000) false false)].isEmpty
      = false) := by
  exact ⟨rfl, rfl⟩

/-- Claim C4 as amended: an identical second delivery of `SetPending`,
`SetConfirmed` or `SettleInvoice` (the events of the first delivery applied
before the second) produces the empty event list, provided the first delivery
establishes the corresponding guard: a positive `SetPending` amount, a
positive `SetConfirmed` confirmation count, and a `SettleInvoice`
received_amount at least the invoice amount.  (An underpaying settle, a
zero-amount pending or a zero-confirmation confirm are re-emitted instead.) -/
theorem redelivery_second_empty_amended (s : OnChainInvoice) (ls : LightningInvoice)
    (amt : Amount) (c : Nat) (txid : String) (ra : Amount) :
    (0 < amt.cent_amount → s.redeliver (.SetPending amt) = .ok []) ∧
    (0 < c → s.redeliver (.SetConfirmed c amt txid) = .ok []) ∧
    (ls.amount.cent_amount ≤ ra.cent_amount →
      ls.redeliver (.SettleInvoice ra) = .ok []) := by
  refine ⟨fun h => ?_, fun h => ?_, fun h => ?_⟩
  · by_cases hr : 0 < s.received_amount.cent_amount <;>
      simp [OnChainInvoice.redeliver, OnChainInvoice.handle, OnChainInvoice.applyAll,
        OnChainInvoice.apply, hr, h]
  · by_cases hc : 0 < s.confirmations <;>
      simp [OnChainInvoice.redeliver, OnChainInvoice.handle, OnChainInvoice.applyAll,
        OnChainInvoice.apply, hc, h]
  · by_cases hp : ls.paid <;>
      simp [LightningInvoice.redeliver, LightningInvoice.handle, LightningInvoice.applyAll,
        LightningInvoice.apply, hp, h]

/-- Witness for the amended C4: the three guarded cases at concrete inputs. -/
theorem redelivery_second_empty_amended_wit :
    (OnChainInvoice.default.redeliver (.SetPending (Amount.sats 5)) = .ok []) ∧
    (OnChainInvoice.default.redeliver (.SetConfirmed 1 (Amount.sats 5) "tx-1") = .ok []) ∧
    (LightningInvoice.default.redeliver (.SettleInvoice (Amount.sats 5)) = .ok []) := by
  refine ⟨?_, ?_, ?_⟩
  · exact (redelivery_second_empty_amended OnChainInvoice.default LightningInvoice.default
      (Amount.sats 5) 1 "tx-1" (Amount.sats 5)).1 (by decide)
  · exact (redelivery_second_empty_amended OnChainInvoice.default LightningInvoice.default
      (Amount.sats 5) 1 "tx-1" (Amount.sats 5)).2.1 (by decide)
  · exact (redelivery_second_empty_amended OnChainInvoice.default LightningInvoice.default
      (Amount.sats 5) 1 "tx-1" (Amount.sats 5)).2.2 (by decide)

/-- Counterexample to C5 as stated: a `SetConfirmed` command with
`confirmations = 0` and amount `0` is accepted on the fresh aggregate and its
`PaymentConfirmed` event puts the state into `paid = true` while leaving
`confirmations = 0` and `received_amount = 0`.  From that reachable paid
state, `SetPending` passes its guard and emits a `PaymentPending` event that
mutates the balance field `received_amount`. -/
theorem paid_state_balance_mutation_cex :
    (OnChainInvoice.default.applyAll
        (OnChainInvoice.default.handleEvents
          (.SetConfirmed 0 (Amount.sats 0) "tx-1"))).paid = true ∧
    (OnChainInvoice.default.applyAll
        (OnChainInvoice.default.handleEvents
          (.SetConfirmed 0 (Amount.sats 0) "tx-1"))).handleEvents
        (.SetPending (Amount.sats 5)) =
      [.PaymentPending (Amount.sats 5) false true] ∧
    decide (((OnChainInvoice.default.applyAll
        (OnChainInvoice.default.handleEvents
          (.SetConfirmed 0 (Amount.sats 0) "tx-1"))).apply
        (.PaymentPending (Amount.sats 5) false true)).received_amount =
      (OnChainInvoice.default.applyAll
        (OnChainInvoice.default.handleEvents
          (.SetConfirmed 0 (Amount.sats 0) "tx-1"))).received_amount) = false := by
  refine ⟨rfl, rfl, by decide⟩

/-- Claim C5 as amended: for every `OnChainInvoice` state with `paid = true`
whose `confirmations` and `received_amount` are positive (as is the case
after any `PaymentConfirmed` event with positive confirmations and amount),
no command produces an event that mutates the balance fields
`received_amount`, `underpayment`, `overpayment`; moreover every produced
event preserves the guard, so the state stays absorbing.  The paid states
excluded by the counterexample are those recording a zero-confirmation or
zero-amount `PaymentConfirmed`. -/
theorem paid_absorbing_amended (s : OnChainInvoice) (cmd : OnChainInvoiceCommand)
    (hpaid : s.paid = true) (hc : 0 < s.confirmations)
    (hr : 0 < s.received_amount.cent_amount) :
    ∀ ev ∈ s.handleEvents cmd,
      (s.apply ev).received_amount = s.received_amount ∧
      (s.apply ev).underpayment = s.underpayment ∧
      (s.apply ev).overpayment = s.overpayment ∧
      (s.apply ev).paid = true ∧
      0 < (s.apply ev).confirmations ∧
      0 < (s.apply ev).received_amount.cent_amount := by
  intro ev hev
  match cmd with
  | .CreateInvoice iid nid amt addr =>
      by_cases hcur : amt.currency = Currency.Btc
      · by_cases hid : s.invoice_id = ""
        · simp [OnChainInvoice.handleEvents, OnChainInvoice.handle, hcur, hid] at hev
          subst hev
          simp [OnChainInvoice.apply, hpaid, hc, hr]
        · simp [OnChainInvoice.handleEvents, OnChainInvoice.handle, hcur, hid] at hev
      · simp [OnChainInvoice.handleEvents, OnChainInvoice.handle, hcur] at hev
  | .SetPending amt =>
      simp [OnChainInvoice.handleEvents, OnChainInvoice.handle, hr] at hev
  | .SetConfirmed c amt txid =>
      simp [OnChainInvoice.handleEvents, OnChainInvoice.handle, hc] at hev

/-- Concrete paid state with positive confirmations and received amount,
used as input for the amended C5 witness. -/
def paidOnChainState : OnChainInvoice :=
  { OnChainInvoice.default with paid := true, confirmations := 1, received_amount := Amount.sats 3 }

/-- Witness for the amended C5: a paid state with positive confirmations and
received amount, and the single event produced by `CreateInvoice` there. -/
theorem paid_absorbing_amended_wit :
    (paidOnChainState.apply
        (.InvoiceCreated "inv-1" "node-A" (Amount.sats 9) "addr-1")).received_amount =
      paidOnChainState.received_amount := by
  exact (paid_absorbing_amended paidOnChainState
    (.CreateInvoice "inv-1" "node-A" (Amount.sats 9) "addr-1")
    rfl (by decide) (by decide)
    (.InvoiceCreated "inv-1" "node-A" (Amount.sats 9) "addr-1") (by decide)).1

/-- Claim C7: `handle (CreateInvoice ...)` on the `OnChainInvoice` aggregate:
a fresh aggregate (empty `invoice_id`) with a BTC amount yields exactly
`[InvoiceCreated]`; an already-created aggregate (with a BTC amount) yields
the error `InvoiceAlreadyExists`; a non-BTC amount yields the error
`InvalidCurrency` carrying the offending and the required currency.  In the
source the currency guard runs first, so the non-BTC case applies even on an
already-created aggregate. -/
theorem onchain_create_invoice_spec (s : OnChainInvoice) (iid nid : String)
    (amt : Amount) (addr : String) :
    (amt.currency ≠ Currency.Btc →
      s.handle (.CreateInvoice iid nid amt addr) =
        .error (.InvalidCurrency amt.currency.toDisplay "BTC")) ∧
    (amt.currency = Currency.Btc → s.invoice_id = "" →
      s.handle (.CreateInvoice iid nid amt addr) =
        .ok [.InvoiceCreated iid nid amt addr]) ∧
    (amt.currency = Currency.Btc → s.invoice_id ≠ "" →
      s.handle (.CreateInvoice iid nid amt addr) =
        .error (.InvoiceAlreadyExists iid)) := by
  refine ⟨fun h => ?_, fun h hid => ?_, fun h hid => ?_⟩ <;>
    simp [OnChainInvoice.handle, h, Currency.toDisplay] <;> simp [hid]

/-- Witness for C7: the three cases at concrete inputs, including the spec's
scenario S5 (`USD 100000` rejected as `InvalidCurrency ("USD", "BTC")`). -/
theorem onchain_create_invoice_spec_wit :
    (OnChainInvoice.default.handle
        (.CreateInvoice "inv-1" "node-A" (Amount.new .Usd 100000) "addr-1") =
      .error (.InvalidCurrency "USD" "BTC")) ∧
    (OnChainInvoice.default.handle
        (.CreateInvoice "inv-1" "node-A" (Amount.sats 100000) "addr-1") =
      .ok [.InvoiceCreated "inv-1" "node-A" (Amount.sats 100000) "addr-1"]) ∧
    (({ OnChainInvoice.default with invoice_id := "inv-0" }).handle
        (.CreateInvoice "inv-1" "node-A" (Amount.sats 100000) "addr-1") =
      .error (.InvoiceAlreadyExists "inv-1")) := by
  refine ⟨?_, ?_, ?_⟩
  · exact (onchain_create_invoice_spec OnChainInvoice.default "inv-1" "node-A"
      (Amount.new .Usd 100000) "addr-1").1 (by decide)
  · exact (onchain_create_invoice_spec OnChainInvoice.default "inv-1" "node-A"
      (Amount.sats 100000) "addr-1").2.1 rfl rfl
  · exact (onchain_create_invoice_spec
      { OnChainInvoice.default with invoice_id := "inv-0" } "inv-1" "node-A"
      (Amount.sats 100000) "addr-1").2.2 rfl (by decide)

/-- Counterexample to C8 as stated: on an invoice created for BTC 100000,
`SetPending` with a USD amount is silently accepted — it emits a
`PaymentPending` event (no domain error) and the fold assigns the USD amount
into `received_amount` of the BTC invoice. -/
theorem currency_mismatch_silently_accepted_cex :
    (OnChainInvoice.default.applyAll
        (OnChainInvoice.default.handleEvents
          (.CreateInvoice "inv-1" "node-A" (Amount.sats 100000) "addr-1"))).handle
        (.SetPending (Amount.new .Usd 50)) =
      .ok [.PaymentPending (Amount.new .Usd 50) true false] ∧
    ((OnChainInvoice.default.applyAll
        (OnChainInvoice.default.handleEvents
          (.CreateInvoice "inv-1" "node-A" (Amount.sats 100000) "addr-1"))).applyAll
        ((OnChainInvoice.default.applyAll
          (OnChainInvoice.default.handleEvents
            (.CreateInvoice "inv-1" "node-A" (Amount.sats 100000) "addr-1"))).handleEvents
          (.SetPending (Amount.new .Usd 50)))).received_amount.currency =
      Currency.Usd ∧
    (OnChainInvoice.default.applyAll
        (OnChainInvoice.default.handleEvents
          (.CreateInvoice "inv-1" "node-A" (Amount.sats 100000) "addr-1"))).amount.currency =
      Currency.Btc := by
  refine ⟨rfl, rfl, rfl⟩

/-- Claim C8 as amended: the payment commands `SetPending`, `SetConfirmed` and
`SettleInvoice` perform no currency validation at all — for every state and
every command amount (of any currency) they succeed with an `Ok` result,
comparing and assigning `cent_amount`s across currencies; only
`CreateInvoice` rejects a non-BTC amount. -/
theorem payment_commands_never_currency_error (s : OnChainInvoice)
    (ls : LightningInvoice) (amt : Amount) (c : Nat) (txid : String) (ra : Amount) :
    (∃ events, s.handle (.SetPending amt) = .ok events) ∧
    (∃ events, s.handle (.SetConfirmed c amt txid) = .ok events) ∧
    (∃ events, ls.handle (.SettleInvoice ra) = .ok events) := by
  refine ⟨?_, ?_, ?_⟩
  · by_cases hr : 0 < s.received_amount.cent_amount
    · exact ⟨[], by simp [OnChainInvoice.handle, hr]⟩
    · exact ⟨[.PaymentPending amt
          (decide (amt.cent_amount < s.amount.cent_amount))
          (decide (amt.cent_amount > s.amount.cent_amount))],
        by simp [OnChainInvoice.handle, hr]⟩
  · by_cases hc : 0 < s.confirmations
    · exact ⟨[], by simp [OnChainInvoice.handle, hc]⟩
    · exact ⟨[.PaymentConfirmed amt
          (decide (amt.cent_amount < s.amount.cent_amount))
          (decide (amt.cent_amount > s.amount.cent_amount)) c txid],
        by simp [OnChainInvoice.handle, hc]⟩
  · by_cases hp : ls.paid
    · exact ⟨[], by simp [LightningInvoice.handle, hp]⟩
    · exact ⟨[.InvoiceSettled ra
          (decide (ra.cent_amount > ls.amount.cent_amount))
          (decide (ra.cent_amount ≥ ls.amount.cent_amount))],
        by simp [LightningInvoice.handle, hp]⟩

namespace Composite

/-- Modelled from the spec: `PaymentType` is the closed enum
`BitcoinOnChain | BitcoinLightning` (§3 Data model); its definition is
referenced by `invoice_aggregate.rs` but its source file is not in the
snapshot. -/
inductive PaymentType where
  | BitcoinOnChain
  | BitcoinLightning
deriving DecidableEq, Repr

/-- Modelled from the spec: `InvoiceDetails` (one per supported payment type,
§3); the composite aggregate only collects these values, never inspects
them, so the payload is kept opaque. -/
structure InvoiceDetails where
  payment_type : PaymentType
  payload : String
deriving DecidableEq, Repr

/-- Modelled from the spec: `PaymentDetails` of the path that actually paid;
opaque payload, only stored by `apply`. -/
structure PaymentDetails where
  payload : String
deriving DecidableEq, Repr

/-- Embedding of the composite `Invoice` aggregate state
(`payday_core/src/aggregate/invoice_aggregate.rs`). -/
structure Invoice where
  invoice_id : String
  node_id : String
  payment_types : List PaymentType
  invoice_amount : Amount
  received_amount : Amount
  underpayment : Bool
  overpayment : Bool
  paid : Bool
  invoice_details : List InvoiceDetails
  details : Option PaymentDetails
  used_payment_type : Option PaymentType
deriving DecidableEq, Repr

/-- Embedding of the derived `Default` impl for the composite `Invoice`. -/
def Invoice.default : Invoice :=
  { invoice_id := ""
    node_id := ""
    payment_types := []
    invoice_amount := Amount.new .Btc 0
    received_amount := Amount.new .Btc 0
    underpayment := false
    overpayment := false
    paid := false
    invoice_details := []
    details := none
    used_payment_type := none }

/-- Embedding of the composite `InvoiceCommand`. -/
inductive InvoiceCommand where
  | CreateInvoice (invoice_id node_id : String) (amount : Amount)
      (memo : Option String) (payment_types : List PaymentType)
deriving DecidableEq, Repr

/-- Embedding of the composite `InvoiceEvent`. -/
inductive InvoiceEvent where
  | Created (invoice_id node_id : String) (amount : Amount)
      (payment_types : List PaymentType) (invoice_details : List InvoiceDetails)
  | Paid (payment_type : PaymentType) (received_amount : Amount)
      (underpayment overpayment paid : Bool) (details : Option PaymentDetails)
deriving DecidableEq, Repr

/-- The injected `InvoiceServiceApi::create_invoice` collaborator, modelled as
a function of the same arguments; `Ok details` results are collected and
`Err` results are silently dropped by the handler, mirroring the
`if let Ok(details)` in the source. -/
def ServiceApi : Type :=
  String → String → PaymentType → Amount → Option String → Except Payment.Error InvoiceDetails

/-- Embedding of the composite `Invoice::handle` (`invoice_aggregate.rs`):
it calls the service once per requested payment type, keeps the successful
results in order, errors with `InvoiceDetailsCreation` when none succeeded,
and otherwise emits a single `Created` event.  Note that `handle` never
reads `self`: there is no already-created guard. -/
def Invoice.handle (_self : Invoice) (services : ServiceApi) :
    InvoiceCommand → Except Payment.Error (List InvoiceEvent)
  | .CreateInvoice invoice_id node_id amount memo payment_types =>
      let invoice_details := payment_types.filterMap
        (fun tpe => (services invoice_id node_id tpe amount memo).toOption)
      if invoice_details.isEmpty then
        .error (.InvoiceDetailsCreation
          ("Could not create any invoices on node " ++ node_id))
      else
        .ok [.Created invoice_id node_id amount payment_types invoice_details]

/-- Embedding of the composite `Invoice::apply`. -/
def Invoice.apply (self : Invoice) : InvoiceEvent → Invoice
  | .Created invoice_id node_id amount payment_types invoice_details =>
      { self with invoice_id := invoice_id, node_id := node_id,
                  invoice_amount := amount, payment_types := payment_types,
                  invoice_details := invoice_details }
  | .Paid payment_type received_amount underpayment overpayment paid details =>
      { self with received_amount := received_amount, underpayment := underpayment,
                  overpayment := overpayment, paid := paid, details := details,
                  used_payment_type := some payment_type }

end Composite

/-- Claim C10: the composite `Invoice::handle (CreateInvoice ...)` never
returns `InvoiceAlreadyExists` for any pre-state (there is no created guard);
it returns `InvoiceDetailsCreation` exactly when the injected service
produces no invoice details for any requested payment type, and otherwise
emits a single `Created` event carrying the collected details. -/
theorem composite_create_invoice_spec (self : Composite.Invoice)
    (svc : Composite.ServiceApi) (iid nid : String) (amt : Amount)
    (memo : Option String) (ptypes : List Composite.PaymentType) :
    (∀ other, self.handle svc (.CreateInvoice iid nid amt memo ptypes) ≠
        .error (.InvoiceAlreadyExists other)) ∧
    (self.handle svc (.CreateInvoice iid nid amt memo ptypes) =
        .error (.InvoiceDetailsCreation
          ("Could not create any invoices on node " ++ nid)) ↔
      ∀ tpe ∈ ptypes, (svc iid nid tpe amt memo).toOption = none) ∧
    ((¬ ∀ tpe ∈ ptypes, (svc iid nid tpe amt memo).toOption = none) →
      self.handle svc (.CreateInvoice iid nid amt memo ptypes) =
        .ok [.Created iid nid amt ptypes
          (ptypes.filterMap (fun tpe => (svc iid nid tpe amt memo).toOption))]) := by
  by_cases hds : ptypes.filterMap (fun tpe => (svc iid nid tpe amt memo).toOption) = []
  · refine ⟨?_, ?_, ?_⟩
    · intro other
      simp [Composite.Invoice.handle, hds]
    · rw [← List.filterMap_eq_nil_iff]
      simp [Composite.Invoice.handle, hds]
    · intro hne
      exact absurd (List.filterMap_eq_nil_iff.mp hds) hne
  · refine ⟨?_, ?_, ?_⟩
    · intro other
      simp [Composite.Invoice.handle, List.isEmpty_iff, hds]
    · rw [← List.filterMap_eq_nil_iff]
      simp [Composite.Invoice.handle, List.isEmpty_iff, hds]
    · intro _
      simp [Composite.Invoice.handle, List.isEmpty_iff, hds]

/-- Service instance that fails for every payment type (node down). -/
def svcAllFail : Composite.ServiceApi :=
  fun _ _ _ _ _ => .error (.ServiceError "node down")

/-- Service instance that succeeds for every payment type. -/
def svcAllOk : Composite.ServiceApi :=
  fun _ _ tpe _ _ => .ok { payment_type := tpe, payload := "details" }

/-- Witness for C10: `composite_create_invoice_spec` instantiated with an
all-failing service (yields `InvoiceDetailsCreation`) and an all-succeeding
service (yields a `Created` event, not `InvoiceAlreadyExists`). -/
theorem composite_create_invoice_spec_wit :
    (Composite.Invoice.default.handle svcAllFail
        (.CreateInvoice "inv-1" "node-A" (Amount.sats 100000) none
          [.BitcoinOnChain, .BitcoinLightning]) =
      .error (.InvoiceDetailsCreation "Could not create any invoices on node node-A")) ∧
    (Composite.Invoice.default.handle svcAllOk
        (.CreateInvoice "inv-1" "node-A" (Amount.sats 100000) none
          [.BitcoinOnChain, .BitcoinLightning]) =
      .ok [.Created "inv-1" "node-A" (Amount.sats 100000)
        [.BitcoinOnChain, .BitcoinLightning]
        [{ payment_type := .BitcoinOnChain, payload := "details" },
         { payment_type := .BitcoinLightning, payload := "details" }]]) ∧
    (Composite.Invoice.default.handle svcAllOk
        (.CreateInvoice "inv-1" "node-A" (Amount.sats 100000) none
          [.BitcoinOnChain, .BitcoinLightning]) ≠
      .error (.InvoiceAlreadyExists "inv-1")) := by
  refine ⟨?_, ?_, ?_⟩
  · exact (composite_create_invoice_spec Composite.Invoice.default svcAllFail
      "inv-1" "node-A" (Amount.sats 100000) none
      [.BitcoinOnChain, .BitcoinLightning]).2.1.mpr (by decide)
  · exact (composite_create_invoice_spec Composite.Invoice.default svcAllOk
      "inv-1" "node-A" (Amount.sats 100000) none
      [.BitcoinOnChain, .BitcoinLightning]).2.2 (by decide)
  · exact (composite_create_invoice_spec Composite.Invoice.default svcAllOk
      "inv-1" "node-A" (Amount.sats 100000) none
      [.BitcoinOnChain, .BitcoinLightning]).1 "inv-1"

namespace OffsetStore

/-- Embedding of `payday_postgres/src/offset.rs`: the mutable parts of
`OffsetStore`.  `current_offset` is the in-memory cache (`HashMap<String,
u64>` behind a mutex, modelled as a map), `db` is the durable `offsets`
table keyed by the prefixed id (the `i64` column only ever holds values this
store wrote, so it is modelled as `Nat`), and `pre` is the optional id
namespace (the field named after the namespace marker in the source). -/
structure State where
  current_offset : String → Option Nat
  db : String → Option Nat
  pre : Option String

/-- Embedding of `OffsetStore::with_prefix`. -/
def State.withPre (s : State) (id : String) : String :=
  match s.pre with
  | some p => p ++ ":" ++ id
  | none => id

/-- Embedding of `OffsetStore::get_cached`. -/
def State.getCached (s : State) (id : String) : Option Nat :=
  s.current_offset (s.withPre id)

/-- Embedding of `OffsetStore::set_cached`: the cache is only written when
the new offset is strictly greater than the cached value (absent = 0). -/
def State.setCached (s : State) (id : String) (offset : Nat) : State :=
  if offset ≤ (s.getCached id).getD 0 then s
  else { s with current_offset :=
          fun k => if k = s.withPre id then some offset else s.current_offset k }

/-- The durable `INSERT ... ON CONFLICT (id) DO UPDATE` upsert of the row at
the prefixed id (always succeeds in the successful-call model). -/
def State.dbWrite (s : State) (id : String) (offset : Nat) : State :=
  { s with db := fun k => if k = s.withPre id then some offset else s.db k }

/-- Embedding of `OffsetStore::get_offset_internal` for the successful case
(the claim quantifies over successful calls): the cache is consulted first;
on a miss the durable row is fetched and, when present, written through to
the cache.  Returns the value together with the updated store. -/
def State.getOffsetInternal (s : State) (id : String) : Option Nat × State :=
  match s.getCached id with
  | some cached => (some cached, s)
  | none =>
      match s.db (s.withPre id) with
      | some offset => (some offset, s.setCached id offset)
      | none => (none, s)

/-- Embedding of `OffsetStore::set_offset_internal`: the durable upsert runs
when the existing value `is_none_or(|v| v <= offset)`, and `set_cached` runs
unconditionally afterwards. -/
def State.setOffsetInternal (s : State) (id : String) (offset : Nat) : State :=
  match s.getOffsetInternal id with
  | (existing, s1) =>
      (if (match existing with
           | none => true
           | some v => decide (v ≤ offset)) = true
       then s1.dbWrite id offset
       else s1).setCached id offset

/-- Embedding of `OffsetStoreApi::get_offset`: absent maps to `0`. -/
def State.getOffset (s : State) (id : String) : Nat × State :=
  match s.getOffsetInternal id with
  | (res, s1) => (res.getD 0, s1)

/-- A fresh store over an empty `offsets` table. -/
def emptyState (pre : Option String) : State :=
  { current_offset := fun _ => none, db := fun _ => none, pre := pre }

/-- A finite sequence of successful `set_offset(id, v)` calls, in order. -/
def State.applySets (s : State) (id : String) (vs : List Nat) : State :=
  vs.foldl (fun st v => st.setOffsetInternal id v) s

lemma State.withPre_setCached (s : State) (id : String) (v : Nat) (id2 : String) :
    (s.setCached id v).withPre id2 = s.withPre id2 := by
  unfold State.setCached
  split <;> rfl

lemma State.db_setCached (s : State) (id : String) (v : Nat) :
    (s.setCached id v).db = s.db := by
  unfold State.setCached
  split <;> rfl

lemma State.withPre_dbWrite (s : State) (id : String) (v : Nat) (id2 : String) :
    (s.dbWrite id v).withPre id2 = s.withPre id2 := rfl

lemma State.getCached_dbWrite (s : State) (id : String) (v : Nat) (id2 : String) :
    (s.dbWrite id v).getCached id2 = s.getCached id2 := rfl

lemma State.db_dbWrite_self (s : State) (id : String) (v : Nat) :
    (s.dbWrite id v).db (s.withPre id) = some v := by
  unfold State.dbWrite
  simp

lemma State.setCached_skip {s : State} {id : String} {v : Nat}
    (h : v ≤ (s.getCached id).getD 0) : s.setCached id v = s := by
  unfold State.setCached
  rw [if_pos h]

lemma State.getCached_setCached_write {s : State} {id : String} {v : Nat}
    (h : ¬ v ≤ (s.getCached id).getD 0) :
    (s.setCached id v).getCached id = some v := by
  unfold State.setCached
  rw [if_neg h]
  show (if s.withPre id = s.withPre id then some v else s.current_offset (s.withPre id)) = some v
  rw [if_pos rfl]

lemma State.getOffsetInternal_cached {s : State} {id : String} {c : Nat}
    (h : s.getCached id = some c) : s.getOffsetInternal id = (some c, s) := by
  unfold State.getOffsetInternal
  rw [h]

lemma State.getOffsetInternal_db {s : State} {id : String} {o : Nat}
    (h1 : s.getCached id = none) (h2 : s.db (s.withPre id) = some o) :
    s.getOffsetInternal id = (some o, s.setCached id o) := by
  unfold State.getOffsetInternal
  rw [h1, h2]

lemma State.getOffsetInternal_none {s : State} {id : String}
    (h1 : s.getCached id = none) (h2 : s.db (s.withPre id) = none) :
    s.getOffsetInternal id = (none, s) := by
  unfold State.getOffsetInternal
  rw [h1, h2]

/-- Invariant relating a store to the history of offsets set so far for a
given id: `m` is the maximum offset set, `stored` records whether any
durable write happened.  The cache holds `m` when positive; the durable row
holds `m` exactly when a write happened. -/
def Tracks (s : State) (id : String) (m : Nat) (stored : Bool) : Prop :=
  s.getCached id = (if 0 < m then some m else none) ∧
  s.db (s.withPre id) = (if stored then some m else none) ∧
  (stored = false → m = 0)

lemma tracks_empty (pre : Option String) (id : String) :
    Tracks (emptyState pre) id 0 false := by
  refine ⟨?_, ?_, fun _ => rfl⟩ <;> simp [emptyState, State.getCached]

/-- Tracks state after the durable upsert followed by the cache update, for
a new offset at least the previous maximum. -/
lemma tracks_dbWrite_setCached {s : State} {id : String} {m v : Nat}
    (hc : s.getCached id = (if 0 < m then some m else none)) (hmv : m ≤ v) :
    Tracks ((s.dbWrite id v).setCached id v) id v true := by
  have hcd : ((s.dbWrite id v).getCached id).getD 0 = m := by
    rw [State.getCached_dbWrite, hc]
    by_cases hm : 0 < m
    · rw [if_pos hm]; rfl
    · rw [if_neg hm]
      simp only [Option.getD_none]
      omega
  refine ⟨?_, ?_, fun hfalse => absurd hfalse (by simp)⟩
  · by_cases hvm : v ≤ m
    · have hveq : v = m := le_antisymm hvm hmv
      rw [State.setCached_skip (by rw [hcd]; omega)]
      rw [State.getCached_dbWrite, hc, hveq]
    · rw [State.getCached_setCached_write (by rw [hcd]; omega)]
      rw [if_pos (by omega)]
  · rw [State.db_setCached, State.withPre_setCached, State.withPre_dbWrite]
    rw [State.db_dbWrite_self]
    rfl

/-- Core step lemma: one successful `set_offset(id, v)` takes a store
tracking maximum `m` to a store tracking maximum `max m v`, with a durable
row present. -/
lemma tracks_setOffsetInternal {s : State} {id : String} {m : Nat} {stored : Bool}
    (h : Tracks s id m stored) (v : Nat) :
    Tracks (s.setOffsetInternal id v) id (max m v) true := by
  obtain ⟨hc, hd, hs⟩ := h
  by_cases hm : 0 < m
  · have hst : stored = true := by
      cases stored
      · exact absurd (hs rfl) (by omega)
      · rfl
    subst hst
    simp only [if_pos] at hd
    have hc2 : s.getCached id = some m := by rw [hc, if_pos hm]
    have heq0 := State.getOffsetInternal_cached hc2
    by_cases hmv : m ≤ v
    · have heq : s.setOffsetInternal id v = (s.dbWrite id v).setCached id v := by
        unfold State.setOffsetInternal
        rw [heq0]
        show (if (decide (m ≤ v)) = true then s.dbWrite id v else s).setCached id v = _
        rw [decide_eq_true hmv]
        rfl
      rw [heq, Nat.max_eq_right hmv]
      exact tracks_dbWrite_setCached hc hmv
    · have heq : s.setOffsetInternal id v = s.setCached id v := by
        unfold State.setOffsetInternal
        rw [heq0]
        show (if (decide (m ≤ v)) = true then s.dbWrite id v else s).setCached id v = _
        rw [decide_eq_false hmv]
        rfl
      rw [heq, State.setCached_skip (by rw [hc2]; simp; omega)]
      rw [Nat.max_eq_left (by omega)]
      exact ⟨hc, hd, fun hfalse => absurd hfalse (by simp)⟩
  · have hm0 : m = 0 := by omega
    subst hm0
    have hc2 : s.getCached id = none := by rw [hc, if_neg (by omega)]
    have heq : s.setOffsetInternal id v = (s.dbWrite id v).setCached id v := by
      cases hstored : stored with
      | true =>
          rw [hstored] at hd
          simp only [if_pos] at hd
          have heq0 := State.getOffsetInternal_db hc2 hd
          rw [State.setCached_skip (by rw [hc2]; simp)] at heq0
          unfold State.setOffsetInternal
          rw [heq0]
          show (if (decide (0 ≤ v)) = true then s.dbWrite id v else s).setCached id v = _
          rw [decide_eq_true (Nat.zero_le v)]
          rfl
      | false =>
          rw [hstored] at hd
          simp only [Bool.false_eq_true, if_false] at hd
          have heq0 := State.getOffsetInternal_none hc2 hd
          unfold State.setOffsetInternal
          rw [heq0]
          show (if (true : Bool) = true then s.dbWrite id v else s).setCached id v = _
          rfl
    rw [heq, Nat.max_eq_right (Nat.zero_le v)]
    exact tracks_dbWrite_setCached hc (Nat.zero_le v)

lemma tracks_getOffset {s : State} {id : String} {m : Nat} {stored : Bool}
    (h : Tracks s id m stored) : (s.getOffset id).1 = m := by
  obtain ⟨hc, hd, hs⟩ := h
  by_cases hm : 0 < m
  · have hc2 : s.getCached id = some m := by rw [hc, if_pos hm]
    unfold State.getOffset
    rw [State.getOffsetInternal_cached hc2]
    rfl
  · have hm0 : m = 0 := by omega
    subst hm0
    have hc2 : s.getCached id = none := by rw [hc, if_neg (by omega)]
    cases hstored : stored with
    | true =>
        rw [hstored] at hd
        simp only [if_pos] at hd
        unfold State.getOffset
        rw [State.getOffsetInternal_db hc2 hd]
        rfl
    | false =>
        rw [hstored] at hd
        simp only [Bool.false_eq_true, if_false] at hd
        unfold State.getOffset
        rw [State.getOffsetInternal_none hc2 hd]
        rfl

lemma applySets_getOffset (id : String) (vs : List Nat) :
    ∀ (s : State) (m : Nat) (stored : Bool), Tracks s id m stored →
      ((s.applySets id vs).getOffset id).1 = vs.foldl max m := by
  induction vs with
  | nil =>
      intro s m stored h
      exact tracks_getOffset h
  | cons v vs ih =>
      intro s m stored h
      show (((s.setOffsetInternal id v).applySets id vs).getOffset id).1 = _
      rw [ih (s.setOffsetInternal id v) (max m v) true (tracks_setOffsetInternal h v)]
      rfl

end OffsetStore

/-- Claim C6: for every id and every finite sequence of successful
`set_offset(id, v)` calls on a fresh store, `get_offset(id)` returns the
maximum `v` of the sequence (`0` when the sequence is empty, i.e. when no
offset was ever stored); in particular `set("A",10); set("A",5);
set("A",12)` yields `get("A") = 12`. -/
theorem offset_store_get_returns_max :
    (∀ (pre : Option String) (id : String) (vs : List Nat),
      (((OffsetStore.emptyState pre).applySets id vs).getOffset id).1 =
        vs.foldl max 0) ∧
    ((((OffsetStore.emptyState none).applySets "A" [10, 5, 12]).getOffset "A").1 = 12) := by
  have hmain : ∀ (pre : Option String) (id : String) (vs : List Nat),
      (((OffsetStore.emptyState pre).applySets id vs).getOffset id).1 = vs.foldl max 0 :=
    fun pre id vs =>
      OffsetStore.applySets_getOffset id vs (OffsetStore.emptyState pre) 0 false
        (OffsetStore.tracks_empty pre id)
  refine ⟨hmain, ?_⟩
  rw [hmain none "A" [10, 5, 12]]
  decide

/-- Embedding of `payday_core/src/error.rs`: the crate-level `Error` enum
(all variants carry a message string). -/
inductive CoreError where
  | NodeConnect (msg : String)
  | NodeApi (msg : String)
  | LightningPaymentFailed (msg : String)
  | InvalidInvoiceState (msg : String)
  | InvalidLightningInvoice (msg : String)
  | PublicKey (msg : String)
  | Db (msg : String)
  | InvalidBitcoinAddress (msg : String)
  | InvalidBitcoinNetwork (msg : String)
  | InvalidBitcoinAmount (msg : String)
  | Event (msg : String)
  | InvalidPaymentType (msg : String)
  | Payment (msg : String)
  | PaymentProcessing (msg : String)
deriving DecidableEq, Repr

/-- Modelled from the spec: the error of the external cqrs framework's
`execute` (§4.B distinguishes a terminal user error from retryable
concurrency/storage/deserialization failures).  `DatabaseUnavailable` is the
transient event-log (database) error of claim C1. -/
inductive AggregateError where
  | UserError (e : Payment.Error)
  | ConcurrencyConflict (msg : String)
  | DatabaseUnavailable (msg : String)
  | DeserializationFailure (msg : String)
deriving DecidableEq, Repr

/-- Embedding of `OnChainTransaction` (`payday_core/src/api/on_chain_api.rs`).
`block_height` and `confirmations` are `i32` (so `Int`); the bitcoin
`Address` and `Amount` are modelled by the observations the embedded code
makes of them (`to_string`, `to_sat`). -/
structure OnChainTransaction where
  tx_id : String
  block_height : Int
  node_id : String
  address : String
  amount : Nat
  confirmations : Int
deriving DecidableEq, Repr

/-- Embedding of `OnChainTransactionEvent` (`on_chain_api.rs`). -/
inductive OnChainTransactionEvent where
  | ReceivedUnconfirmed (tx : OnChainTransaction)
  | ReceivedConfirmed (tx : OnChainTransaction)
  | SentUnconfirmed (tx : OnChainTransaction)
  | SentConfirmed (tx : OnChainTransaction)
deriving DecidableEq, Repr

/-- Embedding of `OnChainTransactionEvent::block_height`: only confirmed
events carry a block height. -/
def OnChainTransactionEvent.block_height : OnChainTransactionEvent → Option Int
  | .ReceivedConfirmed tx => some tx.block_height
  | .SentConfirmed tx => some tx.block_height
  | _ => none

/-- The `as u64` cast of an `i32` value: reinterpretation of the
sign-extended value modulo 2^64. -/
def i32_as_u64 (n : Int) : Nat :=
  (n % (2 : Int) ^ 64).toNat

/-- Embedding of `OnChainCommand` (`on_chain_aggregate.rs`): an aggregate id
plus a command. -/
structure OnChainCommand where
  id : String
  command : OnChainInvoiceCommand
deriving DecidableEq, Repr

/-- Embedding of the event-to-command mapper
(`impl From<OnChainTransactionEvent> for OnChainCommand`): the aggregate id
is the transaction's address; confirmed events map to `SetConfirmed`,
unconfirmed ones to `SetPending`, with a BTC amount in sats. -/
def OnChainCommand.fromEvent : OnChainTransactionEvent → OnChainCommand
  | .ReceivedConfirmed tx =>
      { id := tx.address,
        command := .SetConfirmed (i32_as_u64 tx.confirmations)
          (Amount.new .Btc tx.amount) tx.tx_id }
  | .ReceivedUnconfirmed tx =>
      { id := tx.address, command := .SetPending (Amount.new .Btc tx.amount) }
  | .SentConfirmed tx =>
      { id := tx.address,
        command := .SetConfirmed (i32_as_u64 tx.confirmations)
          (Amount.new .Btc tx.amount) tx.tx_id }
  | .SentUnconfirmed tx =>
      { id := tx.address, command := .SetPending (Amount.new .Btc tx.amount) }

/-- Embedding of `OnChainService::process_event`
(`payday/src/on_chain_service.rs`): the event is mapped to a command and
executed through the cqrs framework (`exec`, the injected
`Cqrs::execute`); an `Err` from `execute` is only logged — the method
returns `Ok(())` in every case. -/
def OnChainService.processEvent
    (exec : String → OnChainInvoiceCommand → Except AggregateError Unit)
    (event : OnChainTransactionEvent) : Except CoreError Unit :=
  let command := OnChainCommand.fromEvent event
  match exec command.id command.command with
  | .error _ => .ok ()
  | .ok _ => .ok ()

/-- Embedding of `OnChainTransactionProcessor::process_event`
(`payday_core/src/processor/on_chain_processor.rs`): the handler runs first
and its error aborts processing (`?`); on success, for an event carrying a
block height, `set_block_height` stores `bh as u64` through the offset store
for this processor's node (the store write of claim C1's offset). -/
def OnChainTransactionProcessor.processEvent
    (handler : OnChainTransactionEvent → Except CoreError Unit)
    (node_id : String) (st : OffsetStore.State)
    (event : OnChainTransactionEvent) : Except CoreError OffsetStore.State :=
  let bh := event.block_height
  match handler event with
  | .error e => .error e
  | .ok _ =>
      match bh with
      | some h => .ok (st.setOffsetInternal node_id (i32_as_u64 h))
      | none => .ok st

/-- A `Cqrs::execute` stub that always fails with a transient event-log
(database) error, used for the C1 counterexample. -/
def execAlwaysDbError : String → OnChainInvoiceCommand → Except AggregateError Unit :=
  fun _ _ => .error (.DatabaseUnavailable "connection lost")

/-- The concrete confirmed on-chain transaction event at block height 5 used
for the C1 counterexample. -/
def evConfirmedAt5 : OnChainTransactionEvent :=
  .ReceivedConfirmed
    { tx_id := "tx-1", block_height := 5, node_id := "node-A",
      address := "addr-1", amount := 1000, confirmations := 1 }

/-- Counterexample to C1 as stated: with an `execute` that fails with a
transient database error, processing a confirmed event at block height 5
still succeeds and advances the offset of the producing node from 0 to 5 —
the offset does not stay behind the failing event, so a restart will not
re-deliver it. -/
theorem offset_advances_on_failed_execute_cex :
    (OnChainTransactionProcessor.processEvent
        (OnChainService.processEvent execAlwaysDbError) "node-A"
        (OffsetStore.emptyState none) evConfirmedAt5).map
        (fun st => (st.getOffset "node-A").1) = .ok 5 ∧
    ((OffsetStore.emptyState none).getOffset "node-A").1 = 0 := by
  exact ⟨rfl, rfl⟩

/-- Claim C1 as amended: when the derived command fails during `execute` with
a transient event-log (database) error, the consumer does skip the command
(the service swallows the error and reports success), but the processor then
advances the offset for the producing node to the event's block height, so
the event will NOT be re-delivered after a restart. -/
theorem offset_advance_despite_execute_failure
    (exec : String → OnChainInvoiceCommand → Except AggregateError Unit)
    (st : OffsetStore.State) (node_id : String) (event : OnChainTransactionEvent)
    (bh : Int) (msg : String)
    (_hfail : exec (OnChainCommand.fromEvent event).id
        (OnChainCommand.fromEvent event).command = .error (.DatabaseUnavailable msg))
    (hbh : event.block_height = some bh) :
    OnChainTransactionProcessor.processEvent (OnChainService.processEvent exec)
        node_id st event =
      .ok (st.setOffsetInternal node_id (i32_as_u64 bh)) := by
  unfold OnChainTransactionProcessor.processEvent OnChainService.processEvent
  cases hexec : exec (OnChainCommand.fromEvent event).id
      (OnChainCommand.fromEvent event).command <;>
    simp [hexec, hbh]

/-- Witness for the amended C1 at the concrete failing input. -/
theorem offset_advance_despite_execute_failure_wit :
    (execAlwaysDbError (OnChainCommand.fromEvent evConfirmedAt5).id
        (OnChainCommand.fromEvent evConfirmedAt5).command =
      .error (.DatabaseUnavailable "connection lost")) ∧
    (evConfirmedAt5.block_height = some 5) ∧
    (OnChainTransactionProcessor.processEvent
        (OnChainService.processEvent execAlwaysDbError) "node-A"
        (OffsetStore.emptyState none) evConfirmedAt5 =
      .ok ((OffsetStore.emptyState none).setOffsetInternal "node-A" (i32_as_u64 5))) :=
  ⟨rfl, rfl,
    offset_advance_despite_execute_failure execAlwaysDbError
      (OffsetStore.emptyState none) "node-A" evConfirmedAt5 5 "connection lost"
      rfl rfl⟩

namespace TaskRetry

/-- Embedding of `TaskStatus` (`payday_core/src/events/task.rs`). -/
inductive TaskStatus where
  | Pending
  | Retrying
  | Processing
  | Succeeded
  | Failed
deriving DecidableEq, Repr

/-- Embedding of `TaskResult`. -/
inductive TaskResult where
  | Success
  | Failed
  | Retry
deriving DecidableEq, Repr

/-- Embedding of `RetryType`: the first field of `Fixed`/`Exponential` is the
maximum retry count (`u32`), the second the delay `Duration`, modelled by its
whole seconds (`as_secs`), which is all `next_retry` reads of it. -/
inductive RetryType where
  | Ignore
  | Never
  | Fixed (max : Nat) (delay_secs : Nat)
  | Exponential (max : Nat) (delay_secs : Nat)
deriving DecidableEq, Repr

/-- Embedding of `fixed_backoff` (seconds). -/
def fixed_backoff (offset : Nat) : Nat := offset

/-- Embedding of `exponential_backoff` (seconds): `offset * 2.pow(count)`. -/
def exponential_backoff (count : Nat) (offset : Nat) : Nat :=
  offset * 2 ^ count

/-- Embedding of `RetryType::is_retry`. -/
def RetryType.is_retry : RetryType → Bool
  | .Fixed _ _ => true
  | .Exponential _ _ => true
  | _ => false

/-- Embedding of `RetryType::next_retry`; `tnow` stands for `now()` and
times are in whole seconds.  Note that for `Exponential(r, d)` the count
passed to `exponential_backoff` is `r` — the maximum retry count, not the
task's current retry count. -/
def RetryType.next_retry (self : RetryType) (tnow : Nat) : Option Nat :=
  match self with
  | .Fixed _ d => some (tnow + fixed_backoff d)
  | .Exponential r d => some (tnow + exponential_backoff r d)
  | _ => none

/-- Embedding of `Task` (`task.rs`); the json payload is opaque. -/
structure Task where
  task_type : String
  payload : String
deriving DecidableEq, Repr

/-- Embedding of `SurrealTask` (`payday_surrealdb/src/task.rs`); the ids and
datetimes are modelled as strings and seconds. -/
structure SurrealTask where
  id : Option String
  message_type : String
  task_type : String
  payload : Task
  status : TaskStatus
  processed : Bool
  retry_type : RetryType
  max_retry : Option Nat
  num_retry : Nat
  next_retry : Option Nat
  received_at : Nat
  started_at : Option Nat
  completed_at : Option Nat
  recover_after : Option Int
deriving DecidableEq, Repr

/-- Embedding of `SurrealTask::should_retry`. -/
def SurrealTask.should_retry (self : SurrealTask) : Bool :=
  self.max_retry.isSome && (0 < self.max_retry.getD 0 : Bool) &&
    (self.num_retry < self.max_retry.getD 0 : Bool) && self.retry_type.is_retry

/-- Embedding of `SurrealTask::update_status`; `tnow` stands for `now()`. -/
def SurrealTask.update_status (self : SurrealTask) (tnow : Nat)
    (result : TaskResult) : SurrealTask :=
  match result with
  | .Success =>
      { self with status := .Succeeded, completed_at := some tnow, processed := true }
  | .Retry =>
      if self.should_retry then
        { self with status := .Retrying,
                    next_retry := self.retry_type.next_retry tnow,
                    num_retry := self.num_retry + 1 }
      else
        { self with status := .Failed, completed_at := some tnow, processed := true }
  | .Failed =>
      { self with status := .Failed, completed_at := some tnow, processed := true }

/-- A task with policy `Exponential(3, 10 s)` and current retry count 0, as
built by `SurrealTask::new`. -/
def expTask : SurrealTask :=
  { id := some "task-1"
    message_type := "task"
    task_type := "send-mail"
    payload := { task_type := "send-mail", payload := "p" }
    status := .Pending
    processed := false
    retry_type := .Exponential 3 10
    max_retry := some 3
    num_retry := 0
    next_retry := none
    received_at := 0
    started_at := none
    completed_at := none
    recover_after := none }

end TaskRetry

/-- Claim C9, evaluated at the failing input: for the task with policy
`Exponential(max = 3, base_delay = 10 s)` and current retry count `n = 0`,
the code schedules the first retry with delay `10 * 2 ^ 3 = 80` seconds
(`exponential_backoff` is called with the maximum retry count, not the
current one), whereas the claim requires `base_delay * 2 ^ n = 10` seconds.
The delay also stays `80` at retry count 1; it never depends on `n`. -/
theorem exponential_backoff_uses_max_retries :
    ((TaskRetry.expTask.update_status 100 .Retry).next_retry =
      some (100 + 10 * 2 ^ 3)) ∧
    (decide ((TaskRetry.expTask.update_status 100 .Retry).next_retry =
      some (100 + 10 * 2 ^ 0)) = false) ∧
    (({ TaskRetry.expTask with num_retry := 1 }).update_status 100 .Retry).next_retry =
      some (100 + 10 * 2 ^ 3) := by
  refine ⟨rfl, by decide, rfl⟩

end Payday
